import Mathlib

/-!
Verification of the ZerePy CLI command shell.

A shallow embedding, in Lean 4, of the command registry, dispatcher, suggestion
engine, session context and REPL loop implemented in `src/zerepy/cli.py`, and of
the dummy agent in `src/zerepy/agent.py`.  Pure Python functions become Lean
functions; the mutable CLI object becomes explicit state passing; calls that can
raise become values of an explicit exception type; externally observable calls
(logging, printing, agent and connection-manager methods) become entries of an
effect trace.  Python `dict`s become association lists with Python semantics
(insertion order preserved, assignment overwrites in place).
-/

/-! ## Python string primitives

Characters that would be awkward to spell in literals are built from their
code points: 39 is the single quote, 34 the double quote, 92 the backslash.
-/

/-- The single-quote character. -/
def sqChar : Char := Char.ofNat 39

/-- The double-quote character. -/
def dqChar : Char := Char.ofNat 34

/-- The backslash character. -/
def bsChar : Char := Char.ofNat 92

/-- The single-quote character as a one-character string. -/
def sglq : String := String.singleton sqChar

/-- Wrap a string in single quotes, as several CLI f-strings do. -/
def quoted (s : String) : String := sglq ++ s ++ sglq

/-- Embedding of Python `str.lower` on a single character.  The CLI only ever
compares ASCII command names, so this models the ASCII fragment of `lower`:
code points 65–90 are shifted down by 32, everything else is unchanged. -/
def charLower (c : Char) : Char :=
  if 65 ≤ c.toNat ∧ c.toNat ≤ 90 then Char.ofNat (c.toNat + 32) else c

/-- Embedding of Python `str.lower` (ASCII fragment): lower each character. -/
def pyLower (s : String) : String := String.mk (s.data.map charLower)

/-- Python whitespace characters recognised by `str.strip()` with no argument
(space, tab, newline, carriage return, vertical tab, form feed). -/
def isPySpace (c : Char) : Bool :=
  c = ' ' || c = Char.ofNat 9 || c = Char.ofNat 10 || c = Char.ofNat 13 ||
  c = Char.ofNat 11 || c = Char.ofNat 12

/-- Embedding of Python `str.strip()`: drop whitespace from both ends. -/
def pyStrip (s : String) : String :=
  String.mk (((s.data.dropWhile isPySpace).reverse.dropWhile isPySpace).reverse)

/-! ## Python exceptions

`except Exception` in Python does not catch `SystemExit` or
`KeyboardInterrupt`, which derive from `BaseException` directly; the model
keeps the three kinds apart so the dispatcher can catch exactly what the
source catches. -/

/-- The kinds of raised `BaseException` the CLI distinguishes:
ordinary `Exception`s (carrying their message), `SystemExit` (carrying the
process exit status, raised by `sys.exit`), and `KeyboardInterrupt`. -/
inductive PyExc where
  | exception (msg : String)
  | systemExit (code : Nat)
  | keyboardInterrupt
deriving DecidableEq, Repr

/-! ## shlex.split

Embedding of `shlex.split` in POSIX mode as the dispatcher uses it:
whitespace-separated tokens; single quotes make everything literal; double
quotes group, with backslash escaping only the double quote and the backslash
itself; outside quotes a backslash escapes any character.  An unterminated
quote raises `ValueError("No closing quotation")`; a trailing backslash raises
`ValueError("No escaped character")`. -/

/-- Whitespace as `shlex` defines it (`shlex.whitespace = " \t\r\n"`). -/
def isShlexSpace (c : Char) : Bool :=
  c = ' ' || c = Char.ofNat 9 || c = Char.ofNat 13 || c = Char.ofNat 10

/-- Lexer state of the `shlex.split` state machine: between tokens, inside a
plain word, inside a quoted section, or just after an escape character (whose
surrounding context is `none` for a plain word and `some q` inside quotes). -/
inductive ShlexState where
  | white
  | word
  | quote (q : Char)
  | escaped (ctx : Option Char)
deriving DecidableEq, Repr

/-- One run of the `shlex.split` state machine.  `tok` is the token being
accumulated (in reverse), `sawQuote` records that the current token contained
a quote (so that an empty quoted string still yields a token), `acc` the
emitted tokens (in reverse). -/
def shlexRun : List Char → ShlexState → List Char → Bool → List String →
    Except String (List String)
  | [], .white, _, _, acc => .ok acc.reverse
  | [], .word, tok, _, acc => .ok ((String.mk tok.reverse) :: acc).reverse
  | [], .quote _, _, _, _ => .error "No closing quotation"
  | [], .escaped _, _, _, _ => .error "No escaped character"
  | c :: cs, .white, tok, _, acc =>
    if isShlexSpace c then shlexRun cs .white tok false acc
    else if c = sqChar ∨ c = dqChar then shlexRun cs (.quote c) [] true acc
    else if c = bsChar then shlexRun cs (.escaped none) [] false acc
    else shlexRun cs .word [c] false acc
  | c :: cs, .word, tok, sawQuote, acc =>
    if isShlexSpace c then
      shlexRun cs .white [] false ((String.mk tok.reverse) :: acc)
    else if c = sqChar ∨ c = dqChar then shlexRun cs (.quote c) tok true acc
    else if c = bsChar then shlexRun cs (.escaped none) tok sawQuote acc
    else shlexRun cs .word (c :: tok) sawQuote acc
  | c :: cs, .quote q, tok, sawQuote, acc =>
    if c = q then shlexRun cs .word tok sawQuote acc
    else if q = dqChar ∧ c = bsChar then shlexRun cs (.escaped (some q)) tok sawQuote acc
    else shlexRun cs (.quote q) (c :: tok) sawQuote acc
  | c :: cs, .escaped ctx, tok, sawQuote, acc =>
    match ctx with
    | none => shlexRun cs .word (c :: tok) sawQuote acc
    | some q =>
      -- inside double quotes only the quote and the escape may be escaped;
      -- otherwise the backslash itself is kept
      if c = q ∨ c = bsChar then shlexRun cs (.quote q) (c :: tok) sawQuote acc
      else shlexRun cs (.quote q) (c :: bsChar :: tok) sawQuote acc

/-- Embedding of `shlex.split(s)` (POSIX mode), as called by
`_handle_command`.  Returns the token list, or the `ValueError` message. -/
def shlexSplit (s : String) : Except String (List String) :=
  shlexRun s.data .white [] false []

/-! ## Python dictionaries

`dict` assignment keeps the original insertion position of an existing key and
overwrites its value; a fresh key is appended.  `dict.get` returns the value
for the key or `None`; iteration (`keys()`, `values()`) follows insertion
order. -/

/-- Python `d[k] = v`: overwrite in place, or append a fresh key. -/
def pyDictSet {α : Type} (d : List (String × α)) (k : String) (v : α) :
    List (String × α) :=
  match d with
  | [] => [(k, v)]
  | (k0, v0) :: rest =>
    if k0 = k then (k, v) :: rest else (k0, v0) :: pyDictSet rest k v

/-- Python `d.get(k)`: the value under `k`, or `None`. -/
def pyDictGet {α : Type} (d : List (String × α)) (k : String) : Option α :=
  match d with
  | [] => none
  | (k0, v0) :: rest => if k0 = k then some v0 else pyDictGet rest k

/-! ## Commands and the registry -/

/-- Defunctionalised handler: `cli.py` binds each `Command` to one of these
thirteen bound methods of `ZerePyCLI`. -/
inductive CmdTag where
  | help
  | clearScreen
  | agentAction
  | agentLoop
  | listAgents
  | loadAgent
  | createAgent
  | setDefaultAgent
  | chatSession
  | listActions
  | configureConnection
  | listConnections
  | exitCli
deriving DecidableEq, Repr

/-- The `Command` dataclass of `cli.py`: canonical name, description, usage
tips, handler, aliases.  (`__post_init__` turns a `None` alias list into `[]`;
the embedding always passes the list explicitly.) -/
structure Command where
  name : String
  description : String
  tips : List String
  handler : CmdTag
  aliases : List String
deriving DecidableEq, Repr

/-- The registry type: `self.commands`, a Python `dict` from strings (canonical
names and aliases) to commands. -/
abbrev Registry := List (String × Command)

/-- Embedding of `ZerePyCLI._register_command`: insert the command under its
canonical name, then under every alias, with plain `dict` assignment.  There is
no collision check anywhere in the source. -/
def registerCommand (d : Registry) (c : Command) : Registry :=
  c.aliases.foldl (fun d2 a => pyDictSet d2 a c) (pyDictSet d c.name c)

/-- The thirteen commands registered by `_initialize_commands`, in source
order. -/
def commandList : List Command :=
  [ ⟨"help", "Show help", ["help", "help load-agent"], .help, ["h", "?"]⟩,
    ⟨"clear", "Clear the screen", ["clear"], .clearScreen, ["cls"]⟩,
    ⟨"agent-action", "Run agent action", ["agent-action conn action"], .agentAction, ["action", "run"]⟩,
    ⟨"agent-loop", "Run agent loop", ["start"], .agentLoop, ["loop", "start"]⟩,
    ⟨"list-agents", "List agent files", [], .listAgents, ["agents", "ls-agents"]⟩,
    ⟨"load-agent", "Load an agent", ["load-agent agent_name"], .loadAgent, ["load"]⟩,
    ⟨"create-agent", "Create new agent", [], .createAgent, ["new-agent", "create"]⟩,
    ⟨"set-default-agent", "Set default agent", ["default agent_name"], .setDefaultAgent, ["default"]⟩,
    ⟨"chat", "Chat with agent", [], .chatSession, ["talk"]⟩,
    ⟨"list-actions", "List actions for connection", ["list-actions conn"], .listActions, ["actions", "ls-actions"]⟩,
    ⟨"configure-connection", "Configure a connection", ["configure-connection conn"], .configureConnection, ["config", "setup"]⟩,
    ⟨"list-connections", "List all connections", [], .listConnections, ["connections", "ls-connections"]⟩,
    ⟨"exit", "Exit CLI", ["exit"], .exitCli, ["quit", "q"]⟩ ]

/-- Embedding of `_initialize_commands`: start with an empty `dict` and
register each command in turn. -/
def commandRegistry : Registry := commandList.foldl registerCommand []

/-- The registry keys (`self.commands.keys()`), in insertion order. -/
def registryKeys : List String := commandRegistry.map Prod.fst

/-! ## difflib: SequenceMatcher and get_close_matches

`_get_command_suggestions` calls
`difflib.get_close_matches(command, self.commands.keys(), n=3, cutoff=0.6)`.
The embedding below translates the `SequenceMatcher` machinery it relies on
(with `isjunk=None`): for each possibility `x` the matcher is run with
`a = x`, `b = command`.  Ratios are represented as exact rationals; the
source compares IEEE doubles, but for the short strings involved the rational
value of `2*matches/total` is never within double rounding error of a distinct
value of the cutoff `0.6`, so the comparisons agree. -/

/-- Python `d.get(k, default)` for the integer-valued `j2len` dictionaries. -/
def pyDictGetD {κ α : Type} [DecidableEq κ] (d : List (κ × α)) (k : κ) (dflt : α) : α :=
  match d with
  | [] => dflt
  | (k0, v0) :: rest => if k0 = k then v0 else pyDictGetD rest k dflt

/-- Generalised `dict` assignment for non-string keys. -/
def pyDictSetG {κ α : Type} [DecidableEq κ] (d : List (κ × α)) (k : κ) (v : α) :
    List (κ × α) :=
  match d with
  | [] => [(k, v)]
  | (k0, v0) :: rest =>
    if k0 = k then (k, v) :: rest else (k0, v0) :: pyDictSetG rest k v

/-- Embedding of `SequenceMatcher.__chain_b`, first part: map each element of `b` to the
ascending list of indices where it occurs. -/
def b2jBuild (b : List Char) : List (Char × List Nat) :=
  b.enum.foldl (fun d p => pyDictSetG d p.2 (pyDictGetD d p.2 [] ++ [p.1])) []

/-- Embedding of `__chain_b`, autojunk part: with `isjunk=None` the junk set `bjunk` stays
empty, but for `len(b) >= 200` elements occurring more than `len(b)//100 + 1`
times are deleted from `b2j`. -/
def b2jOf (b : List Char) : List (Char × List Nat) :=
  let d := b2jBuild b
  if 200 ≤ b.length then
    d.filter (fun p => ¬ (b.length / 100 + 1 < p.2.length)) else d

/-- The running best block of `find_longest_match`: `a[besti:besti+size]`
equals `b[bestj:bestj+size]`. -/
structure FlmBest where
  besti : Nat
  bestj : Nat
  size : Nat
deriving DecidableEq, Repr

/-- Inner loop of `find_longest_match`: walk the occurrence list of `a[i]`
in `b` (with the source's `continue` below `blo` and `break` at `bhi`),
extending diagonal run lengths from the previous row `old` into `new`. -/
def flmRow (blo bhi i : Nat) :
    List Nat → List (Nat × Nat) → List (Nat × Nat) → FlmBest →
    List (Nat × Nat) × FlmBest
  | [], _, new, best => (new, best)
  | j :: js, old, new, best =>
    if j < blo then flmRow blo bhi i js old new best
    else if bhi ≤ j then (new, best)
    else
      -- Python reads `j2len.get(j-1, 0)`; at j = 0 the index -1 is absent
      let k := (if j = 0 then 0 else pyDictGetD old (j - 1) 0) + 1
      let new2 := pyDictSetG new j k
      let best2 := if best.size < k then ⟨i + 1 - k, j + 1 - k, k⟩ else best
      flmRow blo bhi i js old new2 best2

/-- Outer loop of `find_longest_match`: one row per `i` in `range(alo, ahi)`.
Out-of-range list reads use code point 0 as the default; the algorithm only
ever reads in range. -/
def flmScan (a : List Char) (b2j : List (Char × List Nat)) (blo bhi : Nat) :
    List Nat → List (Nat × Nat) → FlmBest → FlmBest
  | [], _, best => best
  | i :: is, j2len, best =>
    let js := pyDictGetD b2j (a.getD i (Char.ofNat 0)) []
    let (new, best2) := flmRow blo bhi i js j2len [] best
    flmScan a b2j blo bhi is new best2

/-- First extension loop of `find_longest_match`: grow the block downwards
while the preceding characters match (`bjunk` is empty with `isjunk=None`, so
its guard is always true).  Distinct out-of-range defaults keep the guard
false outside the lists.  Each step decreases `besti` and requires
`alo < besti`, so fuel equal to the initial `besti` always suffices. -/
def flmExtendLow (a b : List Char) (alo blo : Nat) :
    Nat → Nat → Nat → Nat → Nat × Nat × Nat
  | 0, besti, bestj, size => (besti, bestj, size)
  | fuel + 1, besti, bestj, size =>
    if alo < besti ∧ blo < bestj ∧
        a.getD (besti - 1) (Char.ofNat 0) = b.getD (bestj - 1) (Char.ofNat 1) then
      flmExtendLow a b alo blo fuel (besti - 1) (bestj - 1) (size + 1)
    else (besti, bestj, size)

/-- Second extension loop of `find_longest_match`: grow the block upwards
while the following characters match.  Each step requires
`besti + size < ahi`, so fuel `ahi - (besti + size)` always suffices. -/
def flmExtendHigh (a b : List Char) (ahi bhi : Nat) (besti bestj : Nat) :
    Nat → Nat → Nat
  | 0, size => size
  | fuel + 1, size =>
    if besti + size < ahi ∧ bestj + size < bhi ∧
        a.getD (besti + size) (Char.ofNat 0) = b.getD (bestj + size) (Char.ofNat 1) then
      flmExtendHigh a b ahi bhi besti bestj fuel (size + 1)
    else size

/-- Embedding of `SequenceMatcher.find_longest_match(alo, ahi, blo, bhi)` with
`isjunk=None`: the dynamic-programming scan followed by the two non-junk
extension loops.  The junk extension loops of the source never execute, since
`bjunk` is empty for `isjunk=None`. -/
def findLongestMatch (a b : List Char) (b2j : List (Char × List Nat))
    (alo ahi blo bhi : Nat) : Nat × Nat × Nat :=
  let best := flmScan a b2j blo bhi (List.range' alo (ahi - alo)) [] ⟨alo, blo, 0⟩
  let r := flmExtendLow a b alo blo best.besti best.besti best.bestj best.size
  let k2 := flmExtendHigh a b ahi bhi r.1 r.2.1 (ahi - (r.1 + r.2.2)) r.2.2
  (r.1, r.2.1, k2)

/-- Sum of the sizes of `get_matching_blocks`: recursively take the longest
match of the current range and recurse on the two sides.  The source drives
this with an explicit queue; only the sum of block sizes is consumed (by
`ratio`), which is invariant under traversal order.  `fuel` bounds the
recursion depth; the sum of the two range widths shrinks at every recursive
call, so the top-level fuel below is always sufficient. -/
def matchTotal (a b : List Char) (b2j : List (Char × List Nat)) :
    Nat → Nat → Nat → Nat → Nat → Nat
  | 0, _, _, _, _ => 0
  | fuel + 1, alo, ahi, blo, bhi =>
    if alo < ahi ∧ blo < bhi then
      let r := findLongestMatch a b b2j alo ahi blo bhi
      if r.2.2 = 0 then 0
      else
        r.2.2 + matchTotal a b b2j fuel alo r.1 blo r.2.1 +
          matchTotal a b b2j fuel (r.1 + r.2.2) ahi (r.2.1 + r.2.2) bhi
    else 0

/-- Embedding of `difflib._calculate_ratio`, as the exact fraction it
denotes: `2*m/len` for nonzero `len`, else `1`, kept as a
numerator/denominator pair with a positive denominator.  The source computes
the IEEE double of this fraction and compares doubles; for the short strings
compared here no two distinct fractions (nor a fraction and the cutoff `0.6`)
are ever identified by double rounding, so exact-fraction comparisons agree
with the float comparisons of the source. -/
def calculateRatio (m len : Nat) : Nat × Nat :=
  if len ≠ 0 then (2 * m, len) else (1, 1)

/-- The rational value of a numerator/denominator pair, for specifications. -/
def fracVal (p : Nat × Nat) : ℚ := (p.1 : ℚ) / p.2

/-- Embedding of `SequenceMatcher.ratio()` for `a` against `b`. -/
def sequenceRatio (a b : List Char) : Nat × Nat :=
  calculateRatio
    (matchTotal a b (b2jOf b) (a.length + b.length + 1) 0 a.length 0 b.length)
    (a.length + b.length)

/-- The element-count dictionary `fullbcount` of `quick_ratio`. -/
def fullCount (b : List Char) : List (Char × Nat) :=
  b.foldl (fun d c => pyDictSetG d c (pyDictGetD d c 0 + 1)) []

/-- The scan of `quick_ratio`: walk `a`, drawing down per-character
availability counts (which may go negative, hence `Int`). -/
def quickRatioScan (fullb : List (Char × Nat)) :
    List Char → List (Char × Int) → Nat → Nat
  | [], _, m => m
  | c :: cs, avail, m =>
    let numb : Int :=
      if (avail.map Prod.fst).contains c then pyDictGetD avail c 0
      else (pyDictGetD fullb c 0 : Nat)
    quickRatioScan fullb cs (pyDictSetG avail c (numb - 1))
      (if 0 < numb then m + 1 else m)

/-- Embedding of `SequenceMatcher.quick_ratio()`. -/
def quickRatio (a b : List Char) : Nat × Nat :=
  calculateRatio (quickRatioScan (fullCount b) a [] 0) (a.length + b.length)

/-- Embedding of `SequenceMatcher.real_quick_ratio()`. -/
def realQuickRatio (a b : List Char) : Nat × Nat :=
  calculateRatio (min a.length b.length) (a.length + b.length)

/-- The comparison `ratio >= cutoff` of `get_close_matches` for its cutoff
`0.6`: a fraction `n/d` with `0 < d` satisfies `3/5 ≤ n/d` iff `3d ≤ 5n`. -/
def cutoffLeB (p : Nat × Nat) : Bool := decide (3 * p.2 ≤ 5 * p.1)

/-- The candidate filter of `get_close_matches`: the chain
`real_quick_ratio() >= cutoff and quick_ratio() >= cutoff and ratio() >= cutoff`
with `a = x`, `b = word`. -/
def gcmGate (word x : List Char) : Bool :=
  cutoffLeB (realQuickRatio x word) && cutoffLeB (quickRatio x word) &&
    cutoffLeB (sequenceRatio x word)

/-- Strict order on ratio fractions (positive denominators), by cross
multiplication. -/
def fracLtB (p q : Nat × Nat) : Bool := decide (p.1 * q.2 < q.1 * p.2)

/-- Equality of ratio fractions (positive denominators), by cross
multiplication. -/
def fracEqB (p q : Nat × Nat) : Bool := decide (p.1 * q.2 = q.1 * p.2)

/-- Embedding of Python string `<`: lexicographic comparison of the code
points of the two character lists. -/
def pyStrLtB : List Char → List Char → Bool
  | [], [] => false
  | [], _ :: _ => true
  | _ :: _, [] => false
  | c :: cs, d :: ds =>
    if c.toNat < d.toNat then true
    else if d.toNat < c.toNat then false
    else pyStrLtB cs ds

/-- A score entry of `get_close_matches`: the ratio fraction of a candidate,
and the candidate. -/
abbrev ScoredCand := (Nat × Nat) × String

/-- The tuple order used by `heapq.nlargest` on `(score, x)` pairs: Python
compares the score components first and breaks ties on the strings.
`tupleGeB p q` says `p` sorts no later than `q`: the score of `q` is smaller,
or the scores are equal and the string of `p` is not smaller. -/
def tupleGeB (p q : ScoredCand) : Bool :=
  fracLtB q.1 p.1 || (fracEqB p.1 q.1 && !pyStrLtB p.2.data q.2.data)

/-- Insert into a descending-sorted list (insertion sort step). -/
def insertDescend (x : ScoredCand) : List ScoredCand → List ScoredCand
  | [] => [x]
  | y :: ys => if tupleGeB y x then y :: insertDescend x ys else x :: y :: ys

/-- Sort score entries descending in the `nlargest` tuple order. -/
def sortDescend (l : List ScoredCand) : List ScoredCand :=
  l.foldl (fun acc x => insertDescend x acc) []

/-- Embedding of `difflib.get_close_matches(word, possibilities, n, cutoff=0.6)`:
keep the possibilities passing the ratio gate together with their scores, move
the `n` best to the front (`heapq.nlargest`, equivalent to a descending sort
followed by `take n`), and strip the scores. -/
def getCloseMatches (word : String) (possibilities : List String) (n : Nat) :
    List String :=
  let result := possibilities.filterMap fun x =>
    if gcmGate word.data x.data then some (sequenceRatio x.data word.data, x)
    else none
  ((sortDescend result).take n).map Prod.snd

/-- Embedding of `ZerePyCLI._get_command_suggestions` with its default `max_suggestions=3`:
suggestions are drawn from all registry keys. -/
def getCommandSuggestions (command : String) : List String :=
  getCloseMatches command registryKeys 3

/-! ## The agent and the session context

`src/zerepy/agent.py` defines the dummy `ZerePyAgent` the CLI drives: its
constructor stores the name and sets `is_llm_set = True`; its methods print
fixed texts or return pure strings and never mutate the agent. -/

/-- The observable state of a `ZerePyAgent`: its name and the `is_llm_set`
flag.  (The connection manager is stateless.) -/
structure Agent where
  name : String
  isLlmSet : Bool
deriving DecidableEq, Repr

/-- Embedding of `ZerePyAgent.__init__`: store the name, set `is_llm_set = True`. -/
def mkZerePyAgent (agentName : String) : Agent := ⟨agentName, true⟩

/-- The session context: `ZerePyCLI.__init__` starts with `self.agent = None`;
the active agent is the only mutable session datum the commands touch. -/
structure SessionState where
  agent : Option Agent
deriving DecidableEq, Repr

/-- The observable events a command run can produce, in order: log lines at
their levels, bare `print` output, the screen clear, and each call into the
agent / connection-manager / filesystem collaborators. -/
inductive Effect where
  | info (msg : String)
  | warn (msg : String)
  | logError (msg : String)
  | consoleOut (msg : String)
  | screenClear
  | callPerformAction (conn action : String) (params : List String)
  | callAgentLoop
  | callSetupLlm
  | callPromptLlm (message : String)
  | cmCallListActions (conn : String)
  | cmCallConfigureConnection (conn : String)
  | cmCallListConnections
  | fsWriteDefaultAgent (name : String)
  | fsGlobAgentsDir
deriving DecidableEq, Repr

/-- Whether an effect is an operation on the agent or its connection manager
(as opposed to terminal output or filesystem access). -/
def Effect.isAgentOp : Effect → Bool
  | .callPerformAction _ _ _ => true
  | .callAgentLoop => true
  | .callSetupLlm => true
  | .callPromptLlm _ => true
  | .cmCallListActions _ => true
  | .cmCallConfigureConnection _ => true
  | .cmCallListConnections => true
  | _ => false

/-- Embedding of `print_h_bar()`: sixty dashes. -/
def hbarLine : String := String.mk (List.replicate 60 (Char.ofNat 45))

/-- The `print_h_bar()` effect. -/
def hbarEffect : Effect := .consoleOut hbarLine

/-- Embedding of `_print_welcome_message`. -/
def welcomeEffects : List Effect :=
  [hbarEffect,
   .info "👋 Welcome to the ZerePy CLI!",
   .info ("Type " ++ quoted "help" ++ " to list commands."),
   hbarEffect]

/-- One event at the chat sub-prompt inside `chat_session`: a typed message,
or a `KeyboardInterrupt` while waiting. -/
inductive ChatEvent where
  | message (s : String)
  | interrupt
deriving DecidableEq, Repr

/-- The external world a session runs against.  `mkAgent` is the outcome of
calling the `ZerePyAgent` constructor (the dummy constructor in `agent.py`
always succeeds — see `dummyMkAgent` — but `_load_agent_from_file` guards the
call with `try`/`except`, so the model keeps the outcome as a parameter);
`generalCfg` is the outcome of reading `agents/general.json` and extracting
`"default_agent"`; `agentFiles` the stems globbed from the `agents` folder;
`chatEvents` the inputs at the chat sub-prompt. -/
structure Env where
  mkAgent : String → Except String Agent
  generalCfg : Except String (Option String)
  agentFiles : List String
  chatEvents : List ChatEvent

/-- The constructor of the repository's `agent.py`: it never raises. -/
def dummyMkAgent : String → Except String Agent :=
  fun n => .ok (mkZerePyAgent n)

/-! ## Dummy agent and connection-manager behaviour -/

/-- Python `repr` of a string (as interpolated by `f"... {a_list}"`); the
dummy strings never contain quotes, so `repr` single-quotes them. -/
def pyReprStr (s : String) : String := quoted s

/-- Python `repr` of a list of strings. -/
def pyReprStrList (xs : List String) : String :=
  "[" ++ String.intercalate ", " (xs.map pyReprStr) ++ "]"

/-- Embedding of `ZerePyAgent.perform_action`: a pure formatted string. -/
def performActionResult (conn action : String) (params : List String) : String :=
  "Performed action " ++ quoted action ++ " on connection " ++ quoted conn ++
    " with params " ++ pyReprStrList params

/-- Embedding of `ZerePyAgent.loop()`: the call plus the dummy body's print.  It returns
normally, so the `except KeyboardInterrupt` arm of `agent_loop` is dead. -/
def agentLoopEffects : List Effect :=
  [.callAgentLoop, .consoleOut "Running agent loop... (Ctrl+C to stop)"]

/-- Embedding of `ZerePyAgent._setup_llm_provider()`: the call plus the dummy body's
print.  Note that the dummy body does not modify `is_llm_set`. -/
def setupLlmEffects : List Effect :=
  [.callSetupLlm, .consoleOut "Setting up LLM provider..."]

/-- Embedding of `ZerePyAgent.prompt_llm`: a pure formatted string. -/
def promptLlmResult (message : String) : String := "LLM response to: " ++ message

/-- Embedding of `DummyConnectionManager.list_actions`. -/
def cmListActionsEffects (conn : String) : List Effect :=
  [.cmCallListActions conn,
   .consoleOut ("Available actions for connection " ++ quoted conn)]

/-- Embedding of `DummyConnectionManager.configure_connection`. -/
def cmConfigureEffects (conn : String) : List Effect :=
  [.cmCallConfigureConnection conn,
   .consoleOut ("Configuring connection " ++ quoted conn)]

/-- Embedding of `DummyConnectionManager.list_connections`. -/
def cmListConnectionsEffects : List Effect :=
  [.cmCallListConnections,
   .consoleOut "Available connections: example_connection"]

/-! ## The command handlers

Each handler is a function from the session state and the full token list
(`input_list`, command token included) to the new state, the effect trace, and
an optional uncaught `BaseException`. -/

/-- The result of invoking a handler. -/
abbrev HandlerResult := SessionState × List Effect × Option PyExc

/-- The per-command description printed by `help <cmd>`. -/
def describeEffects (c : Command) : List Effect :=
  .info (c.name ++ ": " ++ c.description) ::
    c.tips.map (fun tip => .info ("  - " ++ tip))

/-- The f-string padding `{cmd.name:<20}`: left-justify to width 20. -/
def pad20 (s : String) : String :=
  s ++ String.mk (List.replicate (20 - s.length) ' ')

/-- The listing loop of `help`: walk `self.commands.values()` in insertion
order, printing each command the first time its canonical name is seen. -/
def helpListing : List Command → List String → List Effect
  | [], _ => []
  | c :: cs, seen =>
    if seen.contains c.name then helpListing cs seen
    else .info ("  " ++ pad20 c.name ++ " - " ++ c.description) ::
      helpListing cs (c.name :: seen)

/-- The distinct commands the listing loop of `help` prints, in order. -/
def helpDistinct : List Command → List String → List Command
  | [], _ => []
  | c :: cs, seen =>
    if seen.contains c.name then helpDistinct cs seen
    else c :: helpDistinct cs (c.name :: seen)

/-- Embedding of `ZerePyCLI.help`: with an argument, look the argument up in
`self.commands` — exactly as typed, without lowering — and describe the hit or
warn `Command not found.`; without one, list the distinct commands. -/
def helpHandler (st : SessionState) (args : List String) : HandlerResult :=
  match args with
  | _ :: arg :: _ =>
    match pyDictGet commandRegistry arg with
    | some c => (st, describeEffects c, none)
    | none => (st, [.warn "Command not found."], none)
  | _ =>
    (st, .info "Commands:" :: helpListing (commandRegistry.map Prod.snd) [], none)

/-- Embedding of `ZerePyCLI.clear_screen`: clear, then reprint the welcome banner. -/
def clearScreenHandler (st : SessionState) : HandlerResult :=
  (st, .screenClear :: welcomeEffects, none)

/-- Embedding of `ZerePyCLI.agent_action`: agent presence first, then arity, then the
dummy `perform_action` call and the result log. -/
def agentActionHandler (st : SessionState) (args : List String) : HandlerResult :=
  match st.agent with
  | none => (st, [.info "No agent loaded."], none)
  | some _ =>
    match args with
    | _ :: conn :: action :: params =>
      (st, [.callPerformAction conn action params,
            .info ("Result: " ++ performActionResult conn action params)], none)
    | _ => (st, [.info "Usage: agent-action <connection> <action>"], none)

/-- Embedding of `ZerePyCLI.agent_loop`: agent presence first, then the dummy loop call
(which returns normally, so `except KeyboardInterrupt` never fires). -/
def agentLoopHandler (st : SessionState) : HandlerResult :=
  match st.agent with
  | none => (st, [.info "No agent loaded."], none)
  | some _ => (st, agentLoopEffects, none)

/-- Embedding of `ZerePyCLI.list_agents`: glob the agents folder and print every stem
except `general`. -/
def listAgentsHandler (env : Env) (st : SessionState) : HandlerResult :=
  (st, .fsGlobAgentsDir ::
    (env.agentFiles.filter (fun s => s ≠ "general")).map
      (fun s => .info ("- " ++ s)), none)

/-- Embedding of `ZerePyCLI._load_agent_from_file`: assign `self.agent` on success; on any
exception from the construction, log the error and leave the state alone. -/
def loadAgentFromFile (mkResult : Except String Agent) (st : SessionState) :
    SessionState × List Effect :=
  match mkResult with
  | .ok a => (⟨some a⟩, [.info ("✅ Loaded agent: " ++ a.name)])
  | .error e => (st, [.logError ("Could not load agent: " ++ e)])

/-- Embedding of `ZerePyCLI.load_agent`: arity check, then `_load_agent_from_file`. -/
def loadAgentHandler (env : Env) (st : SessionState) (args : List String) :
    HandlerResult :=
  match args with
  | _ :: nm :: _ =>
    let r := loadAgentFromFile (env.mkAgent nm) st
    (r.1, r.2, none)
  | _ => (st, [.info "Usage: load-agent <agent_name>"], none)

/-- Embedding of `ZerePyCLI.create_agent`. -/
def createAgentHandler (st : SessionState) : HandlerResult :=
  (st, [.info "Manual creation: add a .json file in agents/ folder."], none)

/-- Embedding of `ZerePyCLI.set_default_agent`: arity check, then read/update/write
`agents/general.json` inside `try`/`except Exception`.  The read-parse-write
round trip is summarised by `env.generalCfg`: on failure the handler logs its
own error. -/
def setDefaultAgentHandler (env : Env) (st : SessionState) (args : List String) :
    HandlerResult :=
  match args with
  | _ :: nm :: _ =>
    match env.generalCfg with
    | .ok _ =>
      (st, [.fsWriteDefaultAgent nm, .info ("Default agent set to " ++ nm)], none)
    | .error e =>
      (st, [.logError ("Error updating default agent: " ++ e)], none)
  | _ => (st, [.info "Usage: set-default-agent <agent_name>"], none)

/-- The chat sub-loop of `chat_session`: read a message, stop on a stripped,
lowered `exit` or a `KeyboardInterrupt`, otherwise call `prompt_llm`, log the
response, and print a separator. -/
def chatLoop (a : Agent) : List ChatEvent → List Effect
  | [] => []
  | .interrupt :: _ => []
  | .message m :: rest =>
    if pyLower (pyStrip m) = "exit" then []
    else .callPromptLlm m ::
      .info (a.name ++ ": " ++ promptLlmResult m) ::
      hbarEffect :: chatLoop a rest

/-- Embedding of `ZerePyCLI.chat_session`: agent presence first (with its own message
`Load an agent first.`); then, if `is_llm_set` is false, call
`_setup_llm_provider` (which does not set the flag); then the banner and the
chat sub-loop.  The session state is never modified. -/
def chatSessionHandler (env : Env) (st : SessionState) : HandlerResult :=
  match st.agent with
  | none => (st, [.info "Load an agent first."], none)
  | some a =>
    ((st : SessionState),
     (if a.isLlmSet then [] else setupLlmEffects) ++
       [hbarEffect, .info ("Chatting with " ++ a.name), hbarEffect] ++
       chatLoop a env.chatEvents,
     none)

/-- Embedding of `ZerePyCLI.list_actions`: agent presence, then arity, then the
connection-manager call. -/
def listActionsHandler (st : SessionState) (args : List String) : HandlerResult :=
  match st.agent with
  | none => (st, [.info "No agent loaded."], none)
  | some _ =>
    match args with
    | _ :: conn :: _ => (st, cmListActionsEffects conn, none)
    | _ => (st, [.info "Usage: list-actions <connection>"], none)

/-- Embedding of `ZerePyCLI.configure_connection`: agent presence, then arity, then the
connection-manager call. -/
def configureConnectionHandler (st : SessionState) (args : List String) :
    HandlerResult :=
  match st.agent with
  | none => (st, [.info "No agent loaded."], none)
  | some _ =>
    match args with
    | _ :: conn :: _ => (st, cmConfigureEffects conn, none)
    | _ => (st, [.info "Usage: configure-connection <connection>"], none)

/-- Embedding of `ZerePyCLI.list_connections`: the connection-manager call if an agent is
present, else the message. -/
def listConnectionsHandler (st : SessionState) : HandlerResult :=
  match st.agent with
  | none => (st, [.info "No agent loaded."], none)
  | some _ => (st, cmListConnectionsEffects, none)

/-- Embedding of `ZerePyCLI.exit`: log the farewell and raise `SystemExit(0)`
(`sys.exit(0)`), which `except Exception` does not catch. -/
def exitHandler (st : SessionState) : HandlerResult :=
  (st, [.info "Goodbye!"], some (.systemExit 0))

/-- Invocation of the handler bound to a command: `command.handler(input_list)`
with `input_list` in its original case. -/
def runHandler (tag : CmdTag) (env : Env) (st : SessionState)
    (args : List String) : HandlerResult :=
  match tag with
  | .help => helpHandler st args
  | .clearScreen => clearScreenHandler st
  | .agentAction => agentActionHandler st args
  | .agentLoop => agentLoopHandler st
  | .listAgents => listAgentsHandler env st
  | .loadAgent => loadAgentHandler env st args
  | .createAgent => createAgentHandler st
  | .setDefaultAgent => setDefaultAgentHandler env st args
  | .chatSession => chatSessionHandler env st
  | .listActions => listActionsHandler st args
  | .configureConnection => configureConnectionHandler st args
  | .listConnections => listConnectionsHandler st
  | .exitCli => exitHandler st

/-! ## The dispatcher -/

/-- Embedding of `_handle_unknown_command`: warn, propose suggestions when there are any,
and point at `help`. -/
def unknownCommandEffects (cmd : String) : List Effect :=
  .warn ("Unknown command: " ++ quoted cmd) ::
    (match getCommandSuggestions cmd with
     | [] => []
     | ss => .info "Did you mean?" :: ss.map (fun s => .info ("  - " ++ s))) ++
    [.info ("Use " ++ quoted "help" ++ " to see all commands.")]

/-- The `except Exception as e` clause wrapping the body of
`_handle_command`: an ordinary exception is turned into an error-level log
line and a normal return; `SystemExit` and `KeyboardInterrupt` derive from
`BaseException` only and propagate. -/
def exceptClause (st : SessionState) (effs : List Effect) (exc : Option PyExc) :
    SessionState × List Effect × Option PyExc :=
  match exc with
  | some (.exception m) => (st, effs ++ [.logError ("Error: " ++ m)], none)
  | e => (st, effs, e)

/-- Embedding of `ZerePyCLI._handle_command`: tokenize (a `ValueError` from `shlex` is an
ordinary exception, caught by the same clause), return silently on an empty
token list, look the lowered first token up, and either invoke the bound
handler (through the `except` clause) or report the unknown command. -/
def handleCommand (env : Env) (st : SessionState) (input : String) :
    SessionState × List Effect × Option PyExc :=
  match shlexSplit input with
  | .error m => (st, [.logError ("Error: " ++ m)], none)
  | .ok [] => (st, [], none)
  | .ok (tok :: rest) =>
    let commandString := pyLower tok
    match pyDictGet commandRegistry commandString with
    | some c =>
      let r := runHandler c.handler env st (tok :: rest)
      exceptClause r.1 r.2.1 r.2.2
    | none => (st, unknownCommandEffects commandString, none)

/-! ## The REPL loop -/

/-- One occurrence at the main prompt: a line of input, a
`KeyboardInterrupt`, or end of input (`EOFError`). -/
inductive ReplEvent where
  | inputLine (raw : String)
  | interrupt
  | endOfInput
deriving DecidableEq, Repr

/-- Embedding of `_load_default_agent`: read `agents/general.json`; with a configured
default agent load it via `_load_agent_from_file`, with none warn, and on any
exception warn and continue. -/
def loadDefaultAgent (env : Env) (st : SessionState) :
    SessionState × List Effect :=
  match env.generalCfg with
  | .error e => (st, [.warn ("Failed to load default agent: " ++ e)])
  | .ok none => (st, [.warn "No default agent set."])
  | .ok (some nm) => loadAgentFromFile (env.mkAgent nm) st

/-- The `while True` body of `main_loop` over a finite prefix of prompt
events.  A line is stripped; a whitespace-only line is skipped with no
separator; otherwise it is dispatched and a separator printed.
`KeyboardInterrupt` at the prompt continues the loop; `EOFError` runs
`self.exit([])`, whose `SystemExit(0)` ends the process with status 0.  The
returned code is `none` while the loop is still awaiting input when the
events run out, and `some c` when the process terminated with status `c`; an
`Exception` escaping `_handle_command` cannot happen, but would kill the
interpreter with status 1, which is how the model renders it. -/
def loopSteps (env : Env) : SessionState → List ReplEvent →
    SessionState × List Effect × Option Nat
  | st, [] => (st, [], none)
  | st, .interrupt :: rest => loopSteps env st rest
  | st, .endOfInput :: _ => (st, [.info "Goodbye!"], some 0)
  | st, .inputLine raw :: rest =>
    if pyStrip raw = "" then loopSteps env st rest
    else
      let r := handleCommand env st (pyStrip raw)
      match r.2.2 with
      | none =>
        let rec2 := loopSteps env r.1 rest
        (rec2.1, r.2.1 ++ [hbarEffect] ++ rec2.2.1, rec2.2.2)
      | some (.systemExit c) => (r.1, r.2.1, some c)
      | some .keyboardInterrupt =>
        let rec2 := loopSteps env r.1 rest
        (rec2.1, r.2.1 ++ rec2.2.1, rec2.2.2)
      | some (.exception _) => (r.1, r.2.1, some 1)

/-- Embedding of `ZerePyCLI.main_loop` started on a fresh `ZerePyCLI()` (agent `None`):
welcome banner, default-agent load, then the prompt loop. -/
def mainLoop (env : Env) (events : List ReplEvent) :
    SessionState × List Effect × Option Nat :=
  let started := loadDefaultAgent env ⟨none⟩
  let r := loopSteps env started.1 events
  (r.1, welcomeEffects ++ started.2 ++ r.2.1, r.2.2)

/-- The resolution step of `_handle_command` in isolation:
`self.commands.get(input_list[0].lower())`. -/
def resolveToken (t : String) : Option Command :=
  pyDictGet commandRegistry (pyLower t)

/-! ## General lemmas about the embedded primitives -/

/-- Valid code points below the surrogate range round-trip through
`Char.ofNat`. -/
theorem toNat_ofNat_of_small {n : Nat} (h : n < 55296) :
    (Char.ofNat n).toNat = n := by
  have hv : Nat.isValidChar n := Or.inl h
  simp [Char.ofNat, hv]
  rfl

/-- Lowering a character is idempotent. -/
theorem charLower_idem (c : Char) : charLower (charLower c) = charLower c := by
  unfold charLower
  by_cases h : 65 ≤ c.toNat ∧ c.toNat ≤ 90
  · have h2 : (Char.ofNat (c.toNat + 32)).toNat = c.toNat + 32 :=
      toNat_ofNat_of_small (by omega)
    simp [h, h2]
    omega
  · simp [h]

/-- Lowering a string is idempotent. -/
theorem pyLower_idem (s : String) : pyLower (pyLower s) = pyLower s := by
  simp [pyLower, Function.comp_def, charLower_idem]

/-- Characterisation of a failed `dict.get`: no entry has the key. -/
theorem pyDictGet_eq_none_iff {α : Type} (d : List (String × α)) (k : String) :
    pyDictGet d k = none ↔ ∀ p ∈ d, p.1 ≠ k := by
  induction d with
  | nil => simp [pyDictGet]
  | cons hd tl ih =>
    obtain ⟨k0, v0⟩ := hd
    by_cases hk : k0 = k <;> simp [pyDictGet, hk, ih]

/-- A successful `dict.get` returns an entry of the dictionary. -/
theorem pyDictGet_some_mem {α : Type} {d : List (String × α)} {k : String}
    {v : α} (h : pyDictGet d k = some v) : (k, v) ∈ d := by
  induction d with
  | nil => simp [pyDictGet] at h
  | cons hd tl ih =>
    obtain ⟨k0, v0⟩ := hd
    by_cases hk : k0 = k
    · subst hk
      simp [pyDictGet] at h
      simp [h]
    · simp [pyDictGet, hk] at h
      simp [ih h]

/-- With duplicate-free keys, every entry is found by `dict.get`. -/
theorem pyDictGet_eq_some_of_mem {α : Type} {d : List (String × α)}
    {k : String} {v : α} (hnd : (d.map Prod.fst).Nodup) (h : (k, v) ∈ d) :
    pyDictGet d k = some v := by
  induction d with
  | nil => simp at h
  | cons hd tl ih =>
    obtain ⟨k0, v0⟩ := hd
    simp only [List.map_cons, List.nodup_cons] at hnd
    rcases List.mem_cons.mp h with h1 | h1
    · rw [← h1]
      simp [pyDictGet]
    · have hk : k0 ≠ k := by
        rintro rfl
        exact hnd.1 (List.mem_map.mpr ⟨(k0, v), h1, rfl⟩)
      simp [pyDictGet, hk, ih hnd.2 h1]

/-- Setting a key makes `get` return the new value. -/
theorem pyDictGet_set_self {α : Type} (d : List (String × α)) (k : String)
    (v : α) : pyDictGet (pyDictSet d k v) k = some v := by
  induction d with
  | nil => simp [pyDictSet, pyDictGet]
  | cons hd tl ih =>
    obtain ⟨k0, v0⟩ := hd
    by_cases hk : k0 = k <;> simp [pyDictSet, pyDictGet, hk, ih]

/-- Setting a key leaves every other key unchanged. -/
theorem pyDictGet_set_ne {α : Type} (d : List (String × α)) {k k2 : String}
    (v : α) (h : k2 ≠ k) : pyDictGet (pyDictSet d k v) k2 = pyDictGet d k2 := by
  induction d with
  | nil => simp [pyDictSet, pyDictGet, Ne.symm h]
  | cons hd tl ih =>
    obtain ⟨k0, v0⟩ := hd
    by_cases hk : k0 = k
    · subst hk
      simp [pyDictSet, pyDictGet, Ne.symm h]
    · simp only [pyDictSet, hk, if_false]
      by_cases hk2 : k0 = k2 <;> simp [pyDictGet, hk2, ih]

/-- Lookup after the alias-insertion fold of `_register_command`. -/
theorem pyDictGet_alias_fold {c : Command} (as : List String)
    (d : Registry) (k : String) :
    pyDictGet (as.foldl (fun d2 a => pyDictSet d2 a c) d) k =
      if k ∈ as then some c else pyDictGet d k := by
  induction as generalizing d with
  | nil => simp
  | cons a as ih =>
    by_cases hk : k ∈ as
    · simp [List.foldl_cons, ih, hk]
    · by_cases ha : k = a
      · subst ha
        simp [List.foldl_cons, ih, hk, pyDictGet_set_self]
      · simp [List.foldl_cons, ih, hk, ha, pyDictGet_set_ne _ _ ha]

/-- Every key of the registry is already lower case. -/
theorem registry_keys_lowered : ∀ p ∈ commandRegistry, pyLower p.1 = p.1 := by
  decide

/-- The registry keys are pairwise distinct. -/
theorem registry_keys_nodup : (commandRegistry.map Prod.fst).Nodup := by decide

/-- A string whose lowering differs from itself is not a registry key. -/
theorem not_key_of_ne_lower {s : String} (h : s ≠ pyLower s) :
    ∀ p ∈ commandRegistry, p.1 ≠ s := by
  intro p hp he
  exact h (he ▸ (registry_keys_lowered p hp).symm)

/-- A token whose lowering is a registry key resolves to some command. -/
theorem resolveToken_isSome_of_mem {s : String} (h : pyLower s ∈ registryKeys) :
    (resolveToken s).isSome = true := by
  obtain ⟨p, hp, hk⟩ := List.mem_map.mp h
  cases hres : resolveToken s with
  | some c => rfl
  | none =>
    exact absurd hk ((pyDictGet_eq_none_iff _ _).mp hres p hp)

/-! ## The claims -/

/-- C4: for every registered command, resolving its canonical name and
resolving any of its aliases return the same `Command`; the registry keys are
pairwise distinct, so each alias maps to exactly one command. -/
theorem C4_resolution_consistent :
    (commandRegistry.map Prod.fst).Nodup ∧
    ∀ p ∈ commandRegistry,
      pyDictGet commandRegistry p.2.name = some p.2 ∧
      ∀ a ∈ p.2.aliases, pyDictGet commandRegistry a = some p.2 := by decide

/-- C7: the command listing of `help` prints each distinct registered command
exactly once, in registration order, although every command is reachable in
the registry under its canonical name and under each of its aliases (35
registry entries for the 13 distinct commands). -/
theorem C7_listing_distinct_in_order :
    (∀ st : SessionState, helpHandler st ["help"] =
      (st, .info "Commands:" :: commandList.map
        (fun c => .info ("  " ++ pad20 c.name ++ " - " ++ c.description)),
       none)) ∧
    helpDistinct (commandRegistry.map Prod.snd) [] = commandList ∧
    commandList.Nodup ∧
    commandRegistry.length = 35 ∧ commandList.length = 13 :=
  ⟨fun _ => rfl, by decide, by decide, by decide, by decide⟩

/-- C7 witness: the listing effects on the concrete empty session. -/
theorem C7_listing_distinct_in_order_witness :
    helpHandler ⟨none⟩ ["help"] =
      (⟨none⟩, .info "Commands:" :: commandList.map
        (fun c => .info ("  " ++ pad20 c.name ++ " - " ++ c.description)),
       none) :=
  C7_listing_distinct_in_order.1 ⟨none⟩

/-- C3: every command that requires an active agent, run with no agent
loaded, emits exactly one user-visible no-agent message as its only effect
(`No agent loaded.`, and for `chat_session` its text `Load an agent first.`),
leaves the session state unchanged, raises nothing, and invokes no agent or
connection-manager operation. -/
theorem C3_no_agent_noop :
    ∀ (env : Env) (st : SessionState) (args : List String), st.agent = none →
      runHandler .agentAction env st args =
        (st, [.info "No agent loaded."], none) ∧
      runHandler .agentLoop env st args =
        (st, [.info "No agent loaded."], none) ∧
      runHandler .listActions env st args =
        (st, [.info "No agent loaded."], none) ∧
      runHandler .configureConnection env st args =
        (st, [.info "No agent loaded."], none) ∧
      runHandler .listConnections env st args =
        (st, [.info "No agent loaded."], none) ∧
      runHandler .chatSession env st args =
        (st, [.info "Load an agent first."], none) ∧
      ∀ tag ∈ [CmdTag.agentAction, .agentLoop, .listActions,
          .configureConnection, .listConnections, .chatSession],
        (runHandler tag env st args).1 = st ∧
        (runHandler tag env st args).2.1.all (fun e => !e.isAgentOp) = true := by
  intro env st args h
  obtain ⟨ag⟩ := st
  subst h
  refine ⟨rfl, rfl, rfl, rfl, rfl, rfl, ?_⟩
  intro tag htag
  fin_cases htag <;> exact ⟨rfl, rfl⟩

/-- C3 witness: the chat command on the concrete empty session. -/
theorem C3_no_agent_noop_witness :
    runHandler .chatSession ⟨dummyMkAgent, .ok none, [], []⟩ ⟨none⟩ ["chat"] =
      (⟨none⟩, [.info "Load an agent first."], none) :=
  (C3_no_agent_noop ⟨dummyMkAgent, .ok none, [], []⟩ ⟨none⟩ ["chat"]
    rfl).2.2.2.2.2.1

/-- C9: loading an agent is atomic on error: when constructing the new agent
fails, `_load_agent_from_file` logs the error and leaves the active-agent
reference exactly as it was (a loaded agent stays, an agentless session stays
agentless) — and so does the full `load-agent` handler. -/
theorem C9_load_agent_atomic_on_error :
    ∀ (env : Env) (st : SessionState) (nm e : String) (rest : List String),
      env.mkAgent nm = .error e →
      loadAgentFromFile (env.mkAgent nm) st =
        (st, [.logError ("Could not load agent: " ++ e)]) ∧
      runHandler .loadAgent env st ("load-agent" :: nm :: rest) =
        (st, [.logError ("Could not load agent: " ++ e)], none) := by
  intro env st nm e rest h
  refine ⟨by rw [h]; rfl, ?_⟩
  show loadAgentHandler env st ("load-agent" :: nm :: rest) = _
  simp [loadAgentHandler, h, loadAgentFromFile]

/-- C9 witness: a failing constructor leaves a loaded agent active. -/
theorem C9_load_agent_atomic_on_error_witness :
    runHandler .loadAgent ⟨fun _ => .error "boom", .ok none, [], []⟩
        ⟨some ⟨"old", true⟩⟩ ["load-agent", "demo"] =
      (⟨some ⟨"old", true⟩⟩, [.logError ("Could not load agent: " ++ "boom")],
       none) :=
  (C9_load_agent_atomic_on_error ⟨fun _ => .error "boom", .ok none, [], []⟩
    ⟨some ⟨"old", true⟩⟩ "demo" "boom" [] rfl).2

/-- C10: the per-command lookup of `help` is case-sensitive, unlike top-level
dispatch: any non-lower-case spelling whose lowering is a registry key makes
`help` report `Command not found.`, although that same spelling, typed as a
command, resolves (dispatches) successfully; a correctly-cased name or alias
given to `help` resolves to its command and prints its description. -/
theorem C10_help_lookup_case_sensitive :
    (∀ s : String, pyLower s ∈ registryKeys → s ≠ pyLower s →
      (∀ st : SessionState, helpHandler st ["help", s] =
        (st, [.warn "Command not found."], none)) ∧
      (resolveToken s).isSome = true) ∧
    (∀ p ∈ commandRegistry, ∀ st : SessionState,
      helpHandler st ["help", p.1] = (st, describeEffects p.2, none)) := by
  constructor
  · intro s hmem hne
    have hnone : pyDictGet commandRegistry s = none :=
      (pyDictGet_eq_none_iff _ _).mpr (not_key_of_ne_lower hne)
    exact ⟨fun st => by simp [helpHandler, hnone],
      resolveToken_isSome_of_mem hmem⟩
  · intro p hp st
    have := pyDictGet_eq_some_of_mem registry_keys_nodup
      (show (p.1, p.2) ∈ commandRegistry from hp)
    simp [helpHandler, this]

/-- C10 witness: `help HELP` is not found while `HELP` dispatches, and a
correctly-cased alias resolves. -/
theorem C10_help_lookup_case_sensitive_witness :
    (helpHandler ⟨none⟩ ["help", "HELP"] =
      (⟨none⟩, [.warn "Command not found."], none)) ∧
    (resolveToken "HELP").isSome = true ∧
    helpHandler ⟨none⟩ ["help", "h"] =
      (⟨none⟩, describeEffects
        ⟨"help", "Show help", ["help", "help load-agent"], .help, ["h", "?"]⟩,
       none) :=
  ⟨(C10_help_lookup_case_sensitive.1 "HELP" (by decide) (by decide)).1 ⟨none⟩,
   (C10_help_lookup_case_sensitive.1 "HELP" (by decide) (by decide)).2,
   C10_help_lookup_case_sensitive.2
     ("h", ⟨"help", "Show help", ["help", "help load-agent"], .help, ["h", "?"]⟩)
     (by decide) ⟨none⟩⟩

/-- C5: dispatch resolution is case-insensitive: resolving any token equals
resolving its lowered form (in particular `HELP` and `help` resolve alike, to
a command), a token resolves to `c` exactly when some registry entry (a
canonical name or alias) matches it case-insensitively with value `c`, and
otherwise resolution reports not found. -/
theorem C5_resolution_case_insensitive :
    (∀ t : String, resolveToken t = resolveToken (pyLower t)) ∧
    resolveToken "HELP" = resolveToken "help" ∧
    (resolveToken "help").isSome = true ∧
    (∀ (t : String) (c : Command), resolveToken t = some c ↔
      ∃ p ∈ commandRegistry, pyLower p.1 = pyLower t ∧ p.2 = c) ∧
    (∀ t : String, resolveToken t = none ↔
      ∀ p ∈ commandRegistry, pyLower p.1 ≠ pyLower t) := by
  refine ⟨?_, by decide, by decide, ?_, ?_⟩
  · intro t
    show pyDictGet _ (pyLower t) = pyDictGet _ (pyLower (pyLower t))
    rw [pyLower_idem]
  · intro t c
    constructor
    · intro h
      refine ⟨(pyLower t, c), pyDictGet_some_mem h, ?_, rfl⟩
      exact registry_keys_lowered _ (pyDictGet_some_mem h)
    · rintro ⟨p, hp, hlow, rfl⟩
      have hkey : p.1 = pyLower t := (registry_keys_lowered p hp).symm.trans hlow
      exact pyDictGet_eq_some_of_mem registry_keys_nodup (hkey ▸ hp)
  · intro t
    show pyDictGet commandRegistry (pyLower t) = none ↔ _
    rw [pyDictGet_eq_none_iff]
    constructor
    · intro h p hp
      exact fun he => h p hp ((registry_keys_lowered p hp).symm.trans he)
    · intro h p hp
      exact fun he => h p hp ((registry_keys_lowered p hp).trans he)

/-- C5 witness: the case-insensitivity instances at `HELP`. -/
theorem C5_resolution_case_insensitive_witness :
    resolveToken "HELP" = resolveToken (pyLower "HELP") ∧
    (∃ p ∈ commandRegistry, pyLower p.1 = pyLower "HELP" ∧
      p.2 = ⟨"help", "Show help", ["help", "help load-agent"], .help,
        ["h", "?"]⟩) :=
  ⟨C5_resolution_case_insensitive.1 "HELP",
   (C5_resolution_case_insensitive.2.2.2.1 "HELP" _).mp (by decide)⟩

/-- C1 counterexample: `_register_command` performs no collision check.
Registering a second command whose canonical name collides with an existing
key silently overwrites the registry entry — the first command becomes
unreachable and no error of any kind is raised (the registration function is
total and has no failure outcome). -/
theorem C1_counterexample_silent_overwrite :
    registerCommand
        (registerCommand [] ⟨"foo", "first", [], .help, []⟩)
        ⟨"foo", "second", [], .help, []⟩ =
      [("foo", ⟨"foo", "second", [], .help, []⟩)] ∧
    pyDictGet
        (registerCommand
          (registerCommand [] ⟨"foo", "first", [], .help, []⟩)
          ⟨"foo", "second", [], .help, []⟩) "foo" ≠
      some ⟨"foo", "first", [], .help, []⟩ := by decide

/-- C1 amended: `register(command)` inserts the command under its canonical
name and under every one of its aliases, leaving all other keys untouched;
however, collisions are not detected — registration never fails, and a
colliding key is silently overwritten so that the latest registration wins. -/
theorem C1_register_inserts_and_overwrites :
    ∀ (d : Registry) (c : Command) (k : String),
      ((k = c.name ∨ k ∈ c.aliases) →
        pyDictGet (registerCommand d c) k = some c) ∧
      (k ≠ c.name → k ∉ c.aliases →
        pyDictGet (registerCommand d c) k = pyDictGet d k) := by
  intro d c k
  unfold registerCommand
  rw [pyDictGet_alias_fold]
  constructor
  · rintro (rfl | hk)
    · by_cases h : c.name ∈ c.aliases <;> simp [h, pyDictGet_set_self]
    · simp [hk]
  · intro h1 h2
    simp [h2, pyDictGet_set_ne _ _ h1]

/-- C1 witness: inserting the help command registers it under its name and
its aliases and leaves an unrelated key unregistered. -/
theorem C1_register_inserts_and_overwrites_witness :
    pyDictGet
        (registerCommand []
          ⟨"help", "Show help", ["help", "help load-agent"], .help, ["h", "?"]⟩)
        "h" =
      some ⟨"help", "Show help", ["help", "help load-agent"], .help,
        ["h", "?"]⟩ ∧
    pyDictGet
        (registerCommand []
          ⟨"help", "Show help", ["help", "help load-agent"], .help, ["h", "?"]⟩)
        "chat" = pyDictGet ([] : Registry) "chat" :=
  ⟨(C1_register_inserts_and_overwrites []
      ⟨"help", "Show help", ["help", "help load-agent"], .help, ["h", "?"]⟩
      "h").1 (Or.inr (by decide)),
   (C1_register_inserts_and_overwrites []
      ⟨"help", "Show help", ["help", "help load-agent"], .help, ["h", "?"]⟩
      "chat").2 (by decide) (by decide)⟩

/-- The chat sub-loop never calls `_setup_llm_provider`. -/
theorem chatLoop_no_setup (a : Agent) (evs : List ChatEvent) :
    (chatLoop a evs).countP (fun e => decide (e = Effect.callSetupLlm)) = 0 := by
  induction evs with
  | nil => rfl
  | cons ev rest ih =>
    cases ev with
    | interrupt => rfl
    | message m =>
      by_cases hm : pyLower (pyStrip m) = "exit" <;>
        simp [chatLoop, hm, List.countP_cons, ih, hbarEffect]

/-- C8 counterexample: with an agent whose `is_llm_set` flag is `False`, two
consecutive `chat` commands in the same session each call
`_setup_llm_provider` (two setup calls in total, not one), because the dummy
setup routine never sets the flag and the session state is unchanged. -/
theorem C8_counterexample_reinitialization :
    (chatSessionHandler ⟨dummyMkAgent, .ok none, [], []⟩
        ⟨some ⟨"demo", false⟩⟩).1 = ⟨some ⟨"demo", false⟩⟩ ∧
    ((chatSessionHandler ⟨dummyMkAgent, .ok none, [], []⟩
        ⟨some ⟨"demo", false⟩⟩).2.1 ++
      (chatSessionHandler ⟨dummyMkAgent, .ok none, [], []⟩
        (chatSessionHandler ⟨dummyMkAgent, .ok none, [], []⟩
          ⟨some ⟨"demo", false⟩⟩).1).2.1).countP
        (fun e => decide (e = Effect.callSetupLlm)) = 2 := by
  constructor
  · rfl
  · rfl

/-- C8 amended: the `is_llm_set` flag gates initialization on every chat
command: when the flag is false, `_setup_llm_provider` runs (exactly once)
before the chat session proceeds, and when it is true no initialization
happens; the flag itself is never modified — neither by the setup routine nor
by anything else in the session — and the `ZerePyAgent` constructor sets it
true, so an agent as constructed is never initialized lazily, while an agent
whose flag starts false is re-initialized by every chat command of the
session rather than only once. -/
theorem C8_chat_init_gated_each_time :
    (∀ (env : Env) (st : SessionState) (a : Agent), st.agent = some a →
      (chatSessionHandler env st).1 = st ∧
      (a.isLlmSet = false →
        (chatSessionHandler env st).2.1.take 2 = setupLlmEffects ∧
        (chatSessionHandler env st).2.1.countP
          (fun e => decide (e = Effect.callSetupLlm)) = 1) ∧
      (a.isLlmSet = true →
        (chatSessionHandler env st).2.1.countP
          (fun e => decide (e = Effect.callSetupLlm)) = 0)) ∧
    (∀ nm : String, (mkZerePyAgent nm).isLlmSet = true) := by
  refine ⟨?_, fun _ => rfl⟩
  intro env st a h
  obtain ⟨ag⟩ := st
  subst h
  refine ⟨rfl, fun hf => ?_, fun ht => ?_⟩
  · constructor
    · simp [chatSessionHandler, hf, setupLlmEffects]
    · simp [chatSessionHandler, hf, setupLlmEffects, List.countP_cons,
        List.countP_append, chatLoop_no_setup, hbarEffect]
  · simp [chatSessionHandler, ht, List.countP_cons, List.countP_append,
      chatLoop_no_setup, hbarEffect]

/-- C8 witness: a flag-false agent is initialized before its chat session
proceeds. -/
theorem C8_chat_init_gated_each_time_witness :
    (chatSessionHandler ⟨dummyMkAgent, .ok none, [], []⟩
        ⟨some ⟨"demo", false⟩⟩).2.1.take 2 = setupLlmEffects ∧
    (mkZerePyAgent "demo").isLlmSet = true :=
  ⟨((C8_chat_init_gated_each_time.1 ⟨dummyMkAgent, .ok none, [], []⟩
      ⟨some ⟨"demo", false⟩⟩ ⟨"demo", false⟩ rfl).2.1 rfl).1,
   C8_chat_init_gated_each_time.2 "demo"⟩

/-- A handler invocation either returns normally or raises exactly
`SystemExit(0)` (only the `exit` handler does the latter); in particular no
handler of this CLI lets an ordinary `Exception` escape, because each guards
its own fallible calls. -/
theorem runHandler_exc (tag : CmdTag) (env : Env) (st : SessionState)
    (args : List String) :
    (runHandler tag env st args).2.2 = none ∨
    (runHandler tag env st args).2.2 = some (.systemExit 0) := by
  obtain ⟨ag⟩ := st
  cases tag <;> rcases ag with _ | a
  case help.none | help.some =>
    rcases args with _ | ⟨a0, _ | ⟨a1, rest⟩⟩
    · left; rfl
    · left; rfl
    · rcases h : pyDictGet commandRegistry a1 with _ | c <;>
        simp [runHandler, helpHandler, h]
  case agentAction.some =>
    rcases args with _ | ⟨a0, _ | ⟨a1, _ | ⟨a2, rest⟩⟩⟩ <;> left <;> rfl
  case loadAgent.none | loadAgent.some =>
    rcases args with _ | ⟨a0, _ | ⟨a1, rest⟩⟩
    · left; rfl
    · left; rfl
    · rcases h : env.mkAgent a1 with e | ag2 <;>
        simp [runHandler, loadAgentHandler, h, loadAgentFromFile]
  case setDefaultAgent.none | setDefaultAgent.some =>
    rcases args with _ | ⟨a0, _ | ⟨a1, rest⟩⟩
    · left; rfl
    · left; rfl
    · rcases h : env.generalCfg with e | cfg <;>
        simp [runHandler, setDefaultAgentHandler, h]
  case listActions.some | configureConnection.some =>
    rcases args with _ | ⟨a0, _ | ⟨a1, rest⟩⟩ <;> left <;> rfl
  case exitCli.none | exitCli.some => right; rfl
  all_goals left; rfl

/-- Dispatch never propagates an ordinary exception: its outcome is a normal
return or the `SystemExit(0)` of the `exit` command. -/
theorem handleCommand_exc (env : Env) (st : SessionState) (input : String) :
    (handleCommand env st input).2.2 = none ∨
    (handleCommand env st input).2.2 = some (.systemExit 0) := by
  rcases hs : shlexSplit input with m | toks
  · left; simp [handleCommand, hs]
  rcases toks with _ | ⟨tok, rest⟩
  · left; simp [handleCommand, hs]
  rcases hg : pyDictGet commandRegistry (pyLower tok) with _ | c
  · left; simp [handleCommand, hs, hg]
  have hr := runHandler_exc c.handler env st (tok :: rest)
  rcases he : (runHandler c.handler env st (tok :: rest)) with ⟨st2, effs, exc⟩
  rw [he] at hr
  simp only at hr
  rcases hr with h | h <;> subst h <;>
    simp [handleCommand, hs, hg, he, exceptClause]

/-- The REPL loop only ever stops with exit status 0. -/
theorem loopSteps_exit_code (env : Env) (st : SessionState)
    (events : List ReplEvent) :
    (loopSteps env st events).2.2 = none ∨
    (loopSteps env st events).2.2 = some 0 := by
  induction events generalizing st with
  | nil => left; rfl
  | cons ev rest ih =>
    cases ev with
    | interrupt => exact ih st
    | endOfInput => right; rfl
    | inputLine raw =>
      by_cases hw : pyStrip raw = ""
      · simpa [loopSteps, hw] using ih st
      have hc := handleCommand_exc env st (pyStrip raw)
      rcases he : handleCommand env st (pyStrip raw) with ⟨st2, effs, exc⟩
      rw [he] at hc
      simp only at hc
      rcases hc with h | h <;> subst h
      · simpa [loopSteps, hw, he] using ih st2
      · simp [loopSteps, hw, he]

/-- C2: every error raised during handler invocation is caught at the
dispatcher boundary (the `except Exception` clause), logged as an error-level
message, and dispatch returns normally; a tokenization error is caught the
same way; dispatch never propagates an ordinary exception, so no error of
categories (a)–(e) terminates the process — the loop stops only on the `exit`
command or end of input, and in either case with exit status 0. -/
theorem C2_errors_contained :
    (∀ (st : SessionState) (effs : List Effect) (m : String),
      exceptClause st effs (some (.exception m)) =
        (st, effs ++ [.logError ("Error: " ++ m)], none)) ∧
    (∀ (env : Env) (st : SessionState) (input m : String),
      shlexSplit input = .error m →
      handleCommand env st input =
        (st, [.logError ("Error: " ++ m)], none)) ∧
    (∀ (env : Env) (st : SessionState) (input : String) (m : String),
      (handleCommand env st input).2.2 ≠ some (.exception m)) ∧
    (∀ (env : Env) (st : SessionState) (events : List ReplEvent),
      (loopSteps env st events).2.2 = none ∨
      (loopSteps env st events).2.2 = some 0) ∧
    (∀ (env : Env) (events : List ReplEvent),
      (mainLoop env events).2.2 = none ∨ (mainLoop env events).2.2 = some 0) ∧
    (∀ (env : Env) (st : SessionState),
      (handleCommand env st "exit").2.2 = some (.systemExit 0)) ∧
    (∀ (env : Env) (st : SessionState) (rest : List ReplEvent),
      loopSteps env st (.endOfInput :: rest) =
        (st, [.info "Goodbye!"], some 0)) := by
  refine ⟨fun _ _ _ => rfl, ?_, ?_, loopSteps_exit_code, ?_, fun _ _ => rfl,
    fun _ _ _ => rfl⟩
  · intro env st input m h
    simp [handleCommand, h]
  · intro env st input m
    rcases handleCommand_exc env st input with h | h <;> simp [h]
  · intro env events
    exact loopSteps_exit_code env _ events

/-- C2 witness: a tokenization error is logged and contained, `exit` raises
`SystemExit(0)`, and the sample session ends with status 0. -/
theorem C2_errors_contained_witness :
    exceptClause ⟨none⟩ [] (some (.exception "boom")) =
      (⟨none⟩, [] ++ [.logError ("Error: " ++ "boom")], none) ∧
    handleCommand ⟨dummyMkAgent, .ok none, [], []⟩ ⟨none⟩ "bad \"oops" =
      (⟨none⟩, [.logError ("Error: " ++ "No closing quotation")], none) ∧
    (handleCommand ⟨dummyMkAgent, .ok none, [], []⟩ ⟨none⟩ "exit").2.2 =
      some (.systemExit 0) ∧
    ((mainLoop ⟨dummyMkAgent, .ok none, [], []⟩
        [.inputLine "agent-action", .interrupt, .endOfInput]).2.2 = none ∨
      (mainLoop ⟨dummyMkAgent, .ok none, [], []⟩
        [.inputLine "agent-action", .interrupt, .endOfInput]).2.2 = some 0) :=
  ⟨C2_errors_contained.1 ⟨none⟩ [] "boom",
   C2_errors_contained.2.1 ⟨dummyMkAgent, .ok none, [], []⟩ ⟨none⟩
     "bad \"oops" "No closing quotation" rfl,
   C2_errors_contained.2.2.2.2.2.1 ⟨dummyMkAgent, .ok none, [], []⟩ ⟨none⟩,
   C2_errors_contained.2.2.2.2.1 ⟨dummyMkAgent, .ok none, [], []⟩
     [.inputLine "agent-action", .interrupt, .endOfInput]⟩

/-- The embedded Python string order is asymmetric. -/
theorem pyStrLtB_asymm (s : List Char) : ∀ t : List Char,
    pyStrLtB s t = true → pyStrLtB t s = false := by
  induction s with
  | nil =>
    intro t h
    rcases t with _ | ⟨d, ds⟩
    · simp [pyStrLtB] at h
    · rfl
  | cons c cs ih =>
    intro t h
    rcases t with _ | ⟨d, ds⟩
    · simp [pyStrLtB] at h
    rcases Nat.lt_trichotomy c.toNat d.toNat with hcd | hcd | hcd
    · simp [pyStrLtB, hcd, Nat.lt_asymm hcd]
    · simp only [pyStrLtB, hcd, lt_irrefl, if_false] at h ⊢
      exact ih ds h
    · simp [pyStrLtB, hcd, Nat.lt_asymm hcd] at h

/-- The embedded Python string order is transitive. -/
theorem pyStrLtB_trans (s : List Char) : ∀ t u : List Char,
    pyStrLtB s t = true → pyStrLtB t u = true → pyStrLtB s u = true := by
  induction s with
  | nil =>
    intro t u h1 h2
    rcases t with _ | ⟨d, ds⟩
    · simp [pyStrLtB] at h1
    rcases u with _ | ⟨e, es⟩
    · simp [pyStrLtB] at h2
    · rfl
  | cons c cs ih =>
    intro t u h1 h2
    rcases t with _ | ⟨d, ds⟩
    · simp [pyStrLtB] at h1
    rcases u with _ | ⟨e, es⟩
    · simp [pyStrLtB] at h2
    rcases Nat.lt_trichotomy c.toNat d.toNat with hcd | hcd | hcd <;>
      rcases Nat.lt_trichotomy d.toNat e.toNat with hde | hde | hde
    · simp [pyStrLtB, Nat.lt_trans hcd hde]
    · simp [pyStrLtB, hde ▸ hcd]
    · simp [pyStrLtB, hde, Nat.lt_asymm hde] at h2
    · simp [pyStrLtB, hcd ▸ hde]
    · simp only [pyStrLtB, hcd, hde, lt_irrefl, if_false] at h1 h2 ⊢
      exact ih ds es h1 h2
    · simp [pyStrLtB, hde, Nat.lt_asymm hde] at h2
    · simp [pyStrLtB, hcd, Nat.lt_asymm hcd] at h1
    · simp [pyStrLtB, hcd, Nat.lt_asymm hcd] at h1
    · simp [pyStrLtB, hcd, Nat.lt_asymm hcd] at h1

/-- The complement of the embedded Python string order is transitive. -/
theorem pyStrLtB_not_trans (s : List Char) : ∀ t u : List Char,
    pyStrLtB s t = false → pyStrLtB t u = false → pyStrLtB s u = false := by
  induction s with
  | nil =>
    intro t u h1 h2
    rcases t with _ | ⟨d, ds⟩
    · exact h2
    · simp [pyStrLtB] at h1
  | cons c cs ih =>
    intro t u h1 h2
    rcases u with _ | ⟨e, es⟩
    · rfl
    rcases t with _ | ⟨d, ds⟩
    · simp [pyStrLtB] at h2
    rcases Nat.lt_trichotomy c.toNat d.toNat with hcd | hcd | hcd <;>
      rcases Nat.lt_trichotomy d.toNat e.toNat with hde | hde | hde
    · simp [pyStrLtB, hcd] at h1
    · simp [pyStrLtB, hcd] at h1
    · simp [pyStrLtB, hcd] at h1
    · simp [pyStrLtB, hde] at h2
    · simp only [pyStrLtB, hcd, hde, lt_irrefl, if_false] at h1 h2 ⊢
      exact ih ds es h1 h2
    · have hec : e.toNat < c.toNat := by omega
      simp [pyStrLtB, Nat.lt_asymm hec, hec]
    · simp [pyStrLtB, hde] at h2
    · have hec : e.toNat < c.toNat := by omega
      simp [pyStrLtB, Nat.lt_asymm hec, hec]
    · have hec : e.toNat < c.toNat := Nat.lt_trans hde hcd
      simp [pyStrLtB, Nat.lt_asymm hec, hec]

/-- The denominator produced by `_calculate_ratio` is always positive. -/
theorem calculateRatio_den_pos (m len : Nat) : 0 < (calculateRatio m len).2 := by
  unfold calculateRatio
  split <;> simp <;> omega

/-- The denominator of a `ratio()` score is always positive. -/
theorem sequenceRatio_den_pos (a b : List Char) : 0 < (sequenceRatio a b).2 :=
  calculateRatio_den_pos _ _

/-- Cross multiplication decides the strict order of two ratio fractions. -/
theorem fracLtB_iff {p q : Nat × Nat} (hp : 0 < p.2) (hq : 0 < q.2) :
    fracLtB p q = true ↔ fracVal p < fracVal q := by
  rw [fracLtB, decide_eq_true_eq, fracVal, fracVal,
    div_lt_div_iff₀ (by exact_mod_cast hp) (by exact_mod_cast hq)]
  exact_mod_cast Iff.rfl

/-- Cross multiplication decides the equality of two ratio fractions. -/
theorem fracEqB_iff {p q : Nat × Nat} (hp : 0 < p.2) (hq : 0 < q.2) :
    fracEqB p q = true ↔ fracVal p = fracVal q := by
  rw [fracEqB, decide_eq_true_eq, fracVal, fracVal,
    div_eq_div_iff (by positivity) (by positivity)]
  exact_mod_cast Iff.rfl

/-- Cross multiplication decides the cutoff test `0.6 <= ratio`. -/
theorem cutoffLeB_iff {p : Nat × Nat} (hp : 0 < p.2) :
    cutoffLeB p = true ↔ (3 : ℚ) / 5 ≤ fracVal p := by
  rw [cutoffLeB, decide_eq_true_eq, fracVal,
    div_le_div_iff₀ (by norm_num) (by exact_mod_cast hp), mul_comm (p.1 : ℚ) 5]
  exact_mod_cast Iff.rfl

/-- The `nlargest` tuple order is total. -/
theorem tupleGeB_total (p q : ScoredCand) :
    tupleGeB p q = true ∨ tupleGeB q p = true := by
  unfold tupleGeB fracLtB fracEqB
  rcases Nat.lt_trichotomy (p.1.1 * q.1.2) (q.1.1 * p.1.2) with h | h | h
  · right
    simp [h]
  · cases hlt : pyStrLtB p.2.data q.2.data
    · left
      simp [h, hlt, Nat.lt_irrefl]
    · right
      simp [h.symm, pyStrLtB_asymm _ _ hlt, Nat.lt_irrefl]
  · left
    simp [h]

/-- On scores with positive denominators the `nlargest` tuple order is
transitive. -/
theorem tupleGeB_trans {p q r : ScoredCand} (hp : 0 < p.1.2) (hq : 0 < q.1.2)
    (hr : 0 < r.1.2) (h1 : tupleGeB p q = true) (h2 : tupleGeB q r = true) :
    tupleGeB p r = true := by
  unfold tupleGeB at h1 h2 ⊢
  rw [Bool.or_eq_true, Bool.and_eq_true] at h1 h2 ⊢
  rcases h1 with h1 | ⟨h1e, h1s⟩
  · rcases h2 with h2 | ⟨h2e, h2s⟩
    · exact Or.inl ((fracLtB_iff hr hp).mpr
        (lt_trans ((fracLtB_iff hr hq).mp h2) ((fracLtB_iff hq hp).mp h1)))
    · exact Or.inl ((fracLtB_iff hr hp).mpr
        (((fracEqB_iff hq hr).mp h2e) ▸ (fracLtB_iff hq hp).mp h1))
  · rcases h2 with h2 | ⟨h2e, h2s⟩
    · exact Or.inl ((fracLtB_iff hr hp).mpr
        (((fracEqB_iff hp hq).mp h1e) ▸ (fracLtB_iff hr hq).mp h2))
    · refine Or.inr ⟨(fracEqB_iff hp hr).mpr
        (((fracEqB_iff hp hq).mp h1e).trans ((fracEqB_iff hq hr).mp h2e)), ?_⟩
      rw [Bool.not_eq_true'] at h1s h2s ⊢
      exact pyStrLtB_not_trans _ _ _ h1s h2s

/-- On scores with positive denominators the tuple order implies the
descending-similarity order. -/
theorem tupleGeB_fracVal_le {p q : ScoredCand} (hp : 0 < p.1.2)
    (hq : 0 < q.1.2) (h : tupleGeB p q = true) : fracVal q.1 ≤ fracVal p.1 := by
  unfold tupleGeB at h
  rw [Bool.or_eq_true, Bool.and_eq_true] at h
  rcases h with h | ⟨he, _⟩
  · exact le_of_lt ((fracLtB_iff hq hp).mp h)
  · exact le_of_eq ((fracEqB_iff hp hq).mp he).symm

/-- Membership in an insertion step of the descending sort. -/
theorem mem_insertDescend {x y : ScoredCand} {l : List ScoredCand} :
    y ∈ insertDescend x l ↔ y = x ∨ y ∈ l := by
  induction l with
  | nil => simp [insertDescend]
  | cons z zs ih =>
    by_cases h : tupleGeB z x = true <;>
      simp [insertDescend, h, ih] <;> tauto

/-- Membership in the descending sort. -/
theorem mem_sortDescend {y : ScoredCand} {l : List ScoredCand} :
    y ∈ sortDescend l ↔ y ∈ l := by
  suffices h : ∀ (l acc : List ScoredCand),
      (y ∈ l.foldl (fun a x => insertDescend x a) acc ↔ y ∈ acc ∨ y ∈ l) by
    rw [sortDescend, h l []]
    simp
  intro l
  induction l with
  | nil => simp
  | cons z zs ih =>
    intro acc
    rw [List.foldl_cons, ih, mem_insertDescend]
    simp
    tauto

/-- Inserting into a descending-sorted list of positive-denominator scores
keeps it sorted. -/
theorem insertDescend_pairwise {x : ScoredCand} {l : List ScoredCand}
    (hx : 0 < x.1.2) (hl : ∀ y ∈ l, 0 < y.1.2)
    (h : l.Pairwise (fun p q => tupleGeB p q = true)) :
    (insertDescend x l).Pairwise (fun p q => tupleGeB p q = true) := by
  induction l with
  | nil => simp [insertDescend]
  | cons z zs ih =>
    rw [List.pairwise_cons] at h
    by_cases hzx : tupleGeB z x = true
    · rw [insertDescend, if_pos hzx, List.pairwise_cons]
      refine ⟨?_, ih (fun y hy => hl y (List.mem_cons_of_mem z hy)) h.2⟩
      intro y hy
      rcases mem_insertDescend.mp hy with rfl | hy2
      · exact hzx
      · exact h.1 y hy2
    · rw [insertDescend, if_neg hzx, List.pairwise_cons]
      have hz : 0 < z.1.2 := hl z (List.mem_cons_self z zs)
      have hxz : tupleGeB x z = true :=
        (tupleGeB_total x z).resolve_right hzx
      refine ⟨?_, List.pairwise_cons.mpr h⟩
      intro y hy
      rcases List.mem_cons.mp hy with rfl | hy2
      · exact hxz
      · exact tupleGeB_trans hx hz (hl y (List.mem_cons_of_mem z hy2)) hxz
          (h.1 y hy2)

/-- The descending sort of positive-denominator scores is sorted for the
`nlargest` tuple order. -/
theorem sortDescend_pairwise {l : List ScoredCand}
    (hl : ∀ y ∈ l, 0 < y.1.2) :
    (sortDescend l).Pairwise (fun p q => tupleGeB p q = true) := by
  suffices h : ∀ (l acc : List ScoredCand), (∀ y ∈ l, 0 < y.1.2) →
      (∀ y ∈ acc, 0 < y.1.2) →
      acc.Pairwise (fun p q => tupleGeB p q = true) →
      (l.foldl (fun a x => insertDescend x a) acc).Pairwise
        (fun p q => tupleGeB p q = true) from
    h l [] hl (by simp) (by simp)
  intro l
  induction l with
  | nil => intro acc _ _ hp; exact hp
  | cons z zs ih =>
    intro acc hlz hacc hp
    rw [List.foldl_cons]
    refine ih _ (fun y hy => hlz y (List.mem_cons_of_mem z hy)) ?_ ?_
    · intro y hy
      rcases mem_insertDescend.mp hy with rfl | hy2
      · exact hlz _ (List.mem_cons_self _ _)
      · exact hacc y hy2
    · exact insertDescend_pairwise (hlz z (List.mem_cons_self z zs)) hacc hp

/-- Characterisation of the scored candidate list of `get_close_matches`:
entries are the possibilities passing the ratio gate, paired with their
`ratio()` score. -/
theorem mem_gcm_scored {word : String} {poss : List String} {p : ScoredCand} :
    p ∈ poss.filterMap (fun x =>
      if gcmGate word.data x.data then some (sequenceRatio x.data word.data, x)
      else none) ↔
    p.2 ∈ poss ∧ gcmGate word.data p.2.data = true ∧
      p.1 = sequenceRatio p.2.data word.data := by
  rw [List.mem_filterMap]
  constructor
  · rintro ⟨a, ha, hfa⟩
    by_cases hg : gcmGate word.data a.data = true
    · rw [if_pos hg] at hfa
      obtain rfl := Option.some_injective _ hfa
      exact ⟨ha, hg, rfl⟩
    · rw [if_neg hg] at hfa
      exact absurd hfa (Option.noConfusion)
  · rintro ⟨hmem, hg, hp⟩
    refine ⟨p.2, hmem, ?_⟩
    rw [if_pos hg, ← hp]

/-- C6: for every input token, the suggestion operation returns at most 3
candidates, all drawn from the registry keys (canonical names and aliases),
each passing the `0.6`-cutoff ratio gate — in particular with `ratio()` at
least `3/5` — ordered by descending similarity (a deterministic order, being
a function of the token); for the token `aciton` the result is exactly
`action`, `actions`, `ls-actions` — including `action` and excluding `exit` —
and when no key passes the gate the result is empty. -/
theorem C6_suggestions_ranked_and_bounded :
    (∀ cmd : String, (getCommandSuggestions cmd).length ≤ 3) ∧
    (∀ cmd : String, ∀ s ∈ getCommandSuggestions cmd,
      s ∈ registryKeys ∧ gcmGate cmd.data s.data = true ∧
      (3 : ℚ) / 5 ≤ fracVal (sequenceRatio s.data cmd.data)) ∧
    (∀ cmd : String, (getCommandSuggestions cmd).Pairwise
      (fun x y => fracVal (sequenceRatio y.data cmd.data) ≤
        fracVal (sequenceRatio x.data cmd.data))) ∧
    getCommandSuggestions "aciton" = ["action", "actions", "ls-actions"] ∧
    "action" ∈ getCommandSuggestions "aciton" ∧
    "exit" ∉ getCommandSuggestions "aciton" ∧
    (∀ cmd : String, (∀ k ∈ registryKeys, gcmGate cmd.data k.data = false) →
      getCommandSuggestions cmd = []) := by
  have hdef : ∀ cmd : String, getCommandSuggestions cmd =
      ((sortDescend (registryKeys.filterMap fun x =>
        if gcmGate cmd.data x.data then
          some (sequenceRatio x.data cmd.data, x)
        else none)).take 3).map Prod.snd := fun _ => rfl
  have hgood : ∀ cmd : String, ∀ y ∈ (registryKeys.filterMap fun x =>
      if gcmGate cmd.data x.data then
        some (sequenceRatio x.data cmd.data, x)
      else none), 0 < y.1.2 := by
    intro cmd y hy
    rw [mem_gcm_scored] at hy
    rw [hy.2.2]
    exact sequenceRatio_den_pos _ _
  refine ⟨?_, ?_, ?_, by decide, by decide, by decide, ?_⟩
  · intro cmd
    rw [hdef, List.length_map, List.length_take]
    exact min_le_left _ _
  · intro cmd s hs
    rw [hdef] at hs
    obtain ⟨p, hp, rfl⟩ := List.mem_map.mp hs
    have hp3 := mem_sortDescend.mp (List.take_subset _ _ hp)
    rw [mem_gcm_scored] at hp3
    obtain ⟨hmem, hg, hratio⟩ := hp3
    refine ⟨hmem, hg, ?_⟩
    have hcut : cutoffLeB (sequenceRatio p.2.data cmd.data) = true := by
      rw [gcmGate, Bool.and_eq_true, Bool.and_eq_true] at hg
      exact hg.2
    exact (cutoffLeB_iff (sequenceRatio_den_pos _ _)).mp hcut
  · intro cmd
    rw [hdef, List.pairwise_map]
    have hs := sortDescend_pairwise (hgood cmd)
    have ht := hs.sublist (List.take_sublist 3 _)
    refine ht.imp_of_mem ?_
    intro a b ha hb hab
    have ha2 := mem_sortDescend.mp (List.take_subset _ _ ha)
    have hb2 := mem_sortDescend.mp (List.take_subset _ _ hb)
    have hga := hgood cmd a ha2
    have hgb := hgood cmd b hb2
    rw [mem_gcm_scored] at ha2 hb2
    have := tupleGeB_fracVal_le hga hgb hab
    rw [ha2.2.2, hb2.2.2] at this
    exact this
  · intro cmd h
    rw [hdef, List.filterMap_eq_nil_iff.mpr]
    · rfl
    · intro a ha
      rw [if_neg]
      rw [h a ha]
      simp

/-- C6 witness: the general bounds instantiated at the token `aciton`, and
the empty result at a token no key resembles. -/
theorem C6_suggestions_ranked_and_bounded_witness :
    (getCommandSuggestions "aciton").length ≤ 3 ∧
    ("action" ∈ registryKeys ∧
      gcmGate "aciton".data "action".data = true ∧
      (3 : ℚ) / 5 ≤ fracVal (sequenceRatio "action".data "aciton".data)) ∧
    getCommandSuggestions "qqqq" = [] :=
  ⟨C6_suggestions_ranked_and_bounded.1 "aciton",
   C6_suggestions_ranked_and_bounded.2.1 "aciton" "action"
     (by rw [C6_suggestions_ranked_and_bounded.2.2.2.1]; decide),
   C6_suggestions_ranked_and_bounded.2.2.2.2.2.2 "qqqq" (by decide)⟩
